import Mathlib

/-!
Shallow embedding of the position/collision engine of the rn-bubble-menu
repository (primary source: src/src/BubbleMenu.tsx and src/src/BubbleWrapper.tsx;
the freedom-aware clamp comes from the shipped variant src/dist/BubbleMenu.js).

Modelling conventions:
* JavaScript numbers are modelled as real numbers (the spec states geometric
  facts "within floating tolerance", i.e. about the idealized real semantics).
* `Math.hypot dx dy` is `Real.sqrt (dx ^ 2 + dy ^ 2)`.
* The position store `bubblePositionsRef` and the per-bubble handle registry
  `bubbleRefs` are modelled as total functions: the store is initialized for
  every item id at mount (BubbleMenu.tsx line 110-112) and every rendered
  bubble registers a handle, so the `!pos` / `!bubble` null guards in the
  source are dead after mount and the missing-handle error path (spec section 7a)
  is outside every claim considered here.
* Query operations of the engine (`getDistanceData`, `checkCollision`,
  `checkIndividualCollision`, `isBubbleOutOfPosition`, `willCollideAtPosition`)
  are embedded as pure functions `... -> value` on the state: the source only
  reads the store in them, so they cannot mutate it by construction.
-/

namespace BubbleMenu

open scoped Classical

noncomputable section

/-- Bubble ids (`item.id : string` in the source). -/
abbrev BubbleId := String

/-- 2D position (`Position` interface of BubbleWrapper.tsx). -/
structure Position where
  x : ℝ
  y : ℝ

/-- Menu configuration: props of the `BubbleMenu` component together with the
computed `initialPositions` map (the home positions, already clamped by
`constrainToWindow`).  `freedom` is the `bubbleFreedom` flag of the shipped
variant (spec: `freedomMode`); the src/src variant corresponds to
`freedom = false`. -/
structure Config where
  items : List BubbleId
  home : BubbleId → Position
  width : ℝ
  height : ℝ
  bubbleRadius : ℝ
  menuDistance : ℝ
  menuRotation : ℝ
  freedom : Bool

/-- Mutable state shared between the engine and the drag gesture adapter:
`store` is `bubblePositionsRef.current` (the LogicalPosition map), `handlePos`
is each wrapper's `currentPosition.current`, `dragging` each wrapper's
`isDragging.current`. -/
structure State where
  store : BubbleId → Position
  handlePos : BubbleId → Position
  dragging : BubbleId → Bool

/-- `Math.hypot` on two arguments. -/
def hypot (x y : ℝ) : ℝ := Real.sqrt (x ^ 2 + y ^ 2)

section Engine

variable (cfg : Config)

/-- `constrainToWindow` (BubbleMenu.tsx lines 81-84): home-position clamp with
40px lateral padding. -/
def constrainToWindow (pos : Position) (radius : ℝ) : Position :=
  ⟨max 40 (min (cfg.width - radius * 2 - 40) pos.x),
   max 0 (min (cfg.height - radius * 2) pos.y)⟩

/-- `clampPosition` of the menu, freedom-aware form (dist/BubbleMenu.js lines
366-379).  With `freedom = false` this is exactly `clampPosition` of
src/src/BubbleMenu.tsx lines 86-89. -/
def clampPosition (pos : Position) (radius : ℝ) : Position :=
  if cfg.freedom then
    ⟨pos.x, max 0 pos.y⟩
  else
    ⟨max 0 (min (cfg.width - radius * 2) pos.x),
     max 0 (min (cfg.height - radius * 2) pos.y)⟩

/-- `clampPosition` of the drag wrapper (BubbleWrapper.tsx lines 178-187):
always clamps both axes into the container. -/
def wrapperClampPosition (x y : ℝ) : Position :=
  ⟨max 0 (min (cfg.width - cfg.bubbleRadius * 2) x),
   max 0 (min (cfg.height - cfg.bubbleRadius * 2) y)⟩

/-- `updateBubblePosition` (BubbleMenu.tsx lines 118-123): the single store
writer; replaces one entry of the LogicalPosition map. -/
def updateBubblePosition (s : State) (id : BubbleId) (newPosition : Position) : State :=
  { s with store := fun c => if c = id then newPosition else s.store c }

/-- Result record of `getDistanceData` (BubbleMenu.tsx lines 129-144). -/
structure DistanceData where
  distanceBetweenCenters : ℝ
  dx : ℝ
  dy : ℝ
  minDist : ℝ

/-- `getDistanceData` (BubbleMenu.tsx lines 129-144); the store is total so the
null branch is dead.  `minDist = bubbleRadius * 2 + 10` (10px visual buffer). -/
def getDistanceData (s : State) (idA idB : BubbleId) : DistanceData :=
  let bubbleAPos := s.store idA
  let bubbleBPos := s.store idB
  let dx := bubbleBPos.x - bubbleAPos.x
  let dy := bubbleBPos.y - bubbleAPos.y
  let minDist := cfg.bubbleRadius * 2 + 10
  ⟨hypot dx dy, dx, dy, minDist⟩

/-- The `isColliding` field of `checkCollision` (BubbleMenu.tsx lines 150-156). -/
def checkCollision (s : State) (idA idB : BubbleId) : Prop :=
  (getDistanceData cfg s idA idB).distanceBetweenCenters < (getDistanceData cfg s idA idB).minDist

/-- `checkIndividualCollision` (BubbleMenu.tsx lines 162-168). -/
def checkIndividualCollision (s : State) (idA : BubbleId) : Prop :=
  ∃ other ∈ cfg.items, other ≠ idA ∧
    (getDistanceData cfg s idA other).distanceBetweenCenters <
      (getDistanceData cfg s idA other).minDist

/-- `willCollideAtPosition` (BubbleMenu.tsx lines 264-276). -/
def willCollideAtPosition (s : State) (id : BubbleId) (targetPos : Position) : Prop :=
  ∃ other ∈ cfg.items, other ≠ id ∧
    hypot ((s.store other).x - targetPos.x) ((s.store other).y - targetPos.y) <
      cfg.bubbleRadius * 2 + 10

/-- The guarded store writes at the end of `handleCollision` (BubbleMenu.tsx
lines 208-214): only bubbles that are not being dragged are updated. -/
def applyCollisionWrites (s : State) (idA idB : BubbleId)
    (updatedPosA updatedPosB : Position) : State :=
  let s1 := if s.dragging idA then s else updateBubblePosition s idA updatedPosA
  if s1.dragging idB then s1 else updateBubblePosition s1 idB updatedPosB

/-- `handleCollision` (BubbleMenu.tsx lines 175-215): symmetric overlap
resolution with the 1px nudge for near-aligned bubbles, clamped writes, and
drag-ownership guards. -/
def handleCollision (s : State) (idA idB : BubbleId) : State :=
  let dd := getDistanceData cfg s idA idB
  let distance := hypot dd.dx dd.dy
  if distance = 0 then s
  else
    let overlap := dd.minDist - distance
    let moveX := dd.dx / distance * (overlap / 2)
    let moveY := dd.dy / distance * (overlap / 2)
    let nudge : ℝ := 1
    let nudged := |moveX| < 0.5 ∧ |moveY| < 0.5
    let moveX := if nudged then (if dd.dx = 0 then nudge else dd.dx / |dd.dx| * nudge) else moveX
    let moveY := if nudged then (if dd.dy = 0 then nudge else dd.dy / |dd.dy| * nudge) else moveY
    let bubbleAPos := s.store idA
    let bubbleBPos := s.store idB
    let updatedPosA := clampPosition cfg ⟨bubbleAPos.x - moveX, bubbleAPos.y - moveY⟩ cfg.bubbleRadius
    let updatedPosB := clampPosition cfg ⟨bubbleBPos.x + moveX, bubbleBPos.y + moveY⟩ cfg.bubbleRadius
    applyCollisionWrites s idA idB updatedPosA updatedPosB

/-- `setPosition` of the bubble handle (BubbleWrapper.tsx lines 139-149): writes
the wrapper's `currentPosition` only when the bubble is not being dragged;
never touches the LogicalPosition store. -/
def setPosition (s : State) (id : BubbleId) (pos : Position) : State :=
  if s.dragging id then s
  else { s with handlePos := fun c => if c = id then pos else s.handlePos c }

/-- `isBubbleOutOfPosition` (BubbleMenu.tsx lines 221-229): more than 1px away
from home on either axis. -/
def isBubbleOutOfPosition (s : State) (id : BubbleId) : Prop :=
  let threshold : ℝ := 1
  threshold < |(cfg.home id).x - (s.store id).x| ∨ threshold < |(cfg.home id).y - (s.store id).y|

/-- Proof-infrastructure measure (not from the source): a bubble's maximal
per-axis distance from home.  `isBubbleOutOfPosition` holds exactly when this
exceeds the 1px threshold. -/
def axisDist (s : State) (id : BubbleId) : ℝ :=
  max |(cfg.home id).x - (s.store id).x| |(cfg.home id).y - (s.store id).y|

/-- The `array` component of `isAnyBubbleOutOfPosition` (BubbleMenu.tsx lines
235-245): displaced bubbles in item order. -/
def outOfPositionArray (s : State) : List BubbleId :=
  cfg.items.filter fun id => decide (isBubbleOutOfPosition cfg s id)

/-- `isAnyBubbleDragging` (BubbleMenu.tsx lines 251-258). -/
def isAnyBubbleDragging (s : State) : Bool :=
  cfg.items.any fun id => s.dragging id

/-- The eased step toward home shared by both branches of
`moveBubblesBackToInitialPositions` (BubbleMenu.tsx lines 300-307 and 321-327):
half the remaining distance per axis, snapping exactly when the step is below
0.5px. -/
def homingStep (initialPos bubblePos : Position) : Position :=
  let deltaX := (initialPos.x - bubblePos.x) * 0.5
  let deltaY := (initialPos.y - bubblePos.y) * 0.5
  ⟨if |deltaX| < 0.5 then initialPos.x else bubblePos.x + deltaX,
   if |deltaY| < 0.5 then initialPos.y else bubblePos.y + deltaY⟩

/-- Body of the `items.forEach` of `moveBubblesBackToInitialPositions`
(BubbleMenu.tsx lines 288-336), acting on the accumulated (state, hasUpdates)
pair. -/
def homingFoldStep (ignoreCollisions : Bool) (acc : State × Bool) (item : BubbleId) :
    State × Bool :=
  let st := acc.1
  if st.dragging item then acc
  else
    let isOut := isBubbleOutOfPosition cfg st item
    if ignoreCollisions then
      if isOut then
        (updateBubblePosition st item (homingStep (cfg.home item) (st.store item)), true)
      else acc
    else
      if ¬ checkIndividualCollision cfg st item ∧ isOut then
        let nextPos := homingStep (cfg.home item) (st.store item)
        if ¬ willCollideAtPosition cfg st item nextPos then
          (updateBubblePosition st item nextPos, true)
        else acc
      else acc

/-- `moveBubblesBackToInitialPositions` (BubbleMenu.tsx lines 285-339). -/
def moveBubblesBackToInitialPositions (ignoreCollisions : Bool) (s : State) : State × Bool :=
  cfg.items.foldl (homingFoldStep cfg ignoreCollisions) (s, false)

/-- The pairs on which the collision pass of `runLogicLoop` (BubbleMenu.tsx
lines 410-420) invokes `checkCollision`: for the i-th displaced bubble, every
item that is neither itself nor among the previously processed displaced
bubbles (`previouslyChecked = array.slice(0, i)`).  `checked` accumulates that
prefix. -/
def sweepPairs (items : List BubbleId) : List BubbleId → List BubbleId → List (BubbleId × BubbleId)
  | _, [] => []
  | checked, a :: rest =>
    ((items.filter fun item => decide (item ≠ a ∧ item ∉ checked)).map fun item => (a, item))
      ++ sweepPairs items (checked ++ [ a ]) rest

/-- Two ordered pairs denote the same unordered pair of bubbles. -/
def sameUnorderedPair (p q : BubbleId × BubbleId) : Prop :=
  p = q ∨ (p.1 = q.2 ∧ p.2 = q.1)

/-- The collision pass of `runLogicLoop` (BubbleMenu.tsx lines 410-420):
resolve each swept pair that is currently colliding, in sweep order. -/
def collisionPass (s : State) (array : List BubbleId) : State :=
  (sweepPairs cfg.items [] array).foldl
    (fun st p => if checkCollision cfg st p.1 p.2 then handleCollision cfg st p.1 p.2 else st) s

/-- One invocation of `runLogicLoop` (BubbleMenu.tsx lines 402-426): compute the
displaced set; if empty do nothing; otherwise run the collision pass and
collision-aware homing when a drag is active, else unconstrained homing. -/
def runLogicTick (s : State) : State :=
  let array := outOfPositionArray cfg s
  if array.isEmpty then s
  else if isAnyBubbleDragging cfg s then
    (moveBubblesBackToInitialPositions cfg false (collisionPass cfg s array)).1
  else
    (moveBubblesBackToInitialPositions cfg true s).1

/-- `onPanResponderGrant` (BubbleWrapper.tsx lines 205-207). -/
def dragGrant (s : State) (id : BubbleId) : State :=
  { s with dragging := fun c => if c = id then true else s.dragging c }

/-- `onPanResponderMove` (BubbleWrapper.tsx lines 214-245): clamp home +
cumulative gesture delta, record it as the wrapper position, and — when the
logic-rate throttle fires (`flush`) — push it into the LogicalPosition store. -/
def dragMove (s : State) (id : BubbleId) (gesture : Position) (flush : Bool) : State :=
  let clamped := wrapperClampPosition cfg ((cfg.home id).x + gesture.x) ((cfg.home id).y + gesture.y)
  let s1 : State := { s with handlePos := fun c => if c = id then clamped else s.handlePos c }
  if flush then updateBubblePosition s1 id clamped else s1

/-- `onPanResponderRelease` (BubbleWrapper.tsx lines 251-268): drop drag
ownership and write the home position back, unthrottled. -/
def dragRelease (s : State) (id : BubbleId) : State :=
  let s1 : State :=
    { s with dragging := fun c => if c = id then false else s.dragging c,
             handlePos := fun c => if c = id then cfg.home id else s.handlePos c }
  updateBubblePosition s1 id (cfg.home id)

/-- The body of the `initialPositions` memo (BubbleMenu.tsx lines 96-107)
before the `constrainToWindow` clamp, for the bubble at a given index:
the first bubble sits at the container center (minus the bubble radius on each
axis, aligning the bubble's center with the point), the others on a circle of
radius `menuDistance + 130` at equal angular steps offset by
`-pi / menuRotation`. -/
def unconstrainedInitialPosition (index : ℕ) : Position :=
  let centerX := cfg.width / 2
  let centerY := cfg.height / 2
  let angle := if index = 0 then 0 else
    ((index : ℝ) * (2 * Real.pi)) / ((cfg.items.length : ℝ) - 1) - Real.pi / cfg.menuRotation
  let radius := cfg.menuDistance + 130
  let distance := if index = 0 then (0 : ℝ) else radius
  ⟨centerX + Real.cos angle * distance - cfg.bubbleRadius,
   centerY + Real.sin angle * distance - cfg.bubbleRadius⟩

/-- One entry of `initialPositions` (BubbleMenu.tsx lines 96-107): the
unconstrained circular-layout position clamped by `constrainToWindow`. -/
def initialPosition (index : ℕ) : Position :=
  constrainToWindow cfg (unconstrainedInitialPosition cfg index) cfg.bubbleRadius

/-- The bounds implied by the freedom flag and the container dimensions (spec
section 3, invariant 3): with freedom off, both axes are confined to the
container minus the bubble diameter; with freedom on, the horizontal axis is
unconstrained and the vertical axis is non-negative. -/
def InBounds (p : Position) : Prop :=
  if cfg.freedom then 0 ≤ p.y
  else 0 ≤ p.x ∧ p.x ≤ cfg.width - cfg.bubbleRadius * 2 ∧
    0 ≤ p.y ∧ p.y ≤ cfg.height - cfg.bubbleRadius * 2

end Engine

/-- The write operations that touch the shared state: the three engine-side
ones (`setPosition` flushes from `updateUI`, pairwise collision resolution,
a homing pass) and the three drag-gesture-adapter ones. -/
inductive Op where
  | setPos (id : BubbleId) (p : Position)
  | resolve (idA idB : BubbleId)
  | homing (ignoreCollisions : Bool)
  | dragGrant (id : BubbleId)
  | dragMove (id : BubbleId) (gesture : Position) (flush : Bool)
  | dragRelease (id : BubbleId)

/-- Engine-side operations: everything except the drag gesture adapter's. -/
def Op.isEngineSide : Op → Bool
  | .setPos _ _ => true
  | .resolve _ _ => true
  | .homing _ => true
  | _ => false

/-- Apply one operation to the state. -/
def applyOp (cfg : Config) (s : State) : Op → State
  | .setPos id p => setPosition s id p
  | .resolve idA idB => handleCollision cfg s idA idB
  | .homing ig => (moveBubblesBackToInitialPositions cfg ig s).1
  | .dragGrant id => dragGrant s id
  | .dragMove id g fl => dragMove cfg s id g fl
  | .dragRelease id => dragRelease cfg s id

/-- Apply a sequence of operations, oldest first. -/
def applyOps (cfg : Config) (ops : List Op) (s : State) : State :=
  ops.foldl (applyOp cfg) s

/-! ### Basic lemmas about `hypot` and the store writer -/

lemma hypot_nonneg (x y : ℝ) : 0 ≤ hypot x y := Real.sqrt_nonneg _

lemma hypot_zero_right (x : ℝ) (hx : 0 ≤ x) : hypot x 0 = x := by
  rw [hypot]
  rw [show x ^ 2 + (0 : ℝ) ^ 2 = x ^ 2 by ring]
  exact Real.sqrt_sq hx

lemma hypot_zero_zero : hypot 0 0 = 0 := by
  simpa using hypot_zero_right 0 le_rfl

lemma hypot_scale (c x y : ℝ) : hypot (c * x) (c * y) = |c| * hypot x y := by
  rw [hypot, hypot, show (c * x) ^ 2 + (c * y) ^ 2 = c ^ 2 * (x ^ 2 + y ^ 2) by ring,
    Real.sqrt_mul (sq_nonneg c), Real.sqrt_sq_eq_abs]

lemma hypot_le_add_abs (x y : ℝ) : hypot x y ≤ |x| + |y| := by
  rw [hypot]
  have h : x ^ 2 + y ^ 2 ≤ (|x| + |y|) ^ 2 := by
    have hxy : 0 ≤ |x| * |y| := mul_nonneg (abs_nonneg x) (abs_nonneg y)
    calc x ^ 2 + y ^ 2 = |x| ^ 2 + |y| ^ 2 := by rw [sq_abs, sq_abs]
    _ ≤ |x| ^ 2 + |y| ^ 2 + 2 * (|x| * |y|) := by linarith
    _ = (|x| + |y|) ^ 2 := by ring
  calc Real.sqrt (x ^ 2 + y ^ 2) ≤ Real.sqrt ((|x| + |y|) ^ 2) := Real.sqrt_le_sqrt h
  _ = |x| + |y| := Real.sqrt_sq (by positivity)

@[simp] lemma updateBubblePosition_store (s : State) (id c : BubbleId) (p : Position) :
    (updateBubblePosition s id p).store c = if c = id then p else s.store c := rfl

@[simp] lemma updateBubblePosition_dragging (s : State) (id : BubbleId) (p : Position) :
    (updateBubblePosition s id p).dragging = s.dragging := rfl

@[simp] lemma updateBubblePosition_handlePos (s : State) (id : BubbleId) (p : Position) :
    (updateBubblePosition s id p).handlePos = s.handlePos := rfl

@[simp] lemma getDistanceData_dx (cfg : Config) (s : State) (idA idB : BubbleId) :
    (getDistanceData cfg s idA idB).dx = (s.store idB).x - (s.store idA).x := rfl

@[simp] lemma getDistanceData_dy (cfg : Config) (s : State) (idA idB : BubbleId) :
    (getDistanceData cfg s idA idB).dy = (s.store idB).y - (s.store idA).y := rfl

@[simp] lemma getDistanceData_minDist (cfg : Config) (s : State) (idA idB : BubbleId) :
    (getDistanceData cfg s idA idB).minDist = cfg.bubbleRadius * 2 + 10 := rfl

@[simp] lemma getDistanceData_distance (cfg : Config) (s : State) (idA idB : BubbleId) :
    (getDistanceData cfg s idA idB).distanceBetweenCenters =
      hypot ((s.store idB).x - (s.store idA).x) ((s.store idB).y - (s.store idA).y) := rfl

lemma hypot_sq (x y : ℝ) : hypot x y ^ 2 = x ^ 2 + y ^ 2 :=
  Real.sq_sqrt (by positivity)

lemma clampPosition_eq_self (cfg : Config) (x y r : ℝ) (hf : cfg.freedom = false)
    (hx0 : 0 ≤ x) (hxw : x ≤ cfg.width - r * 2) (hy0 : 0 ≤ y)
    (hyh : y ≤ cfg.height - r * 2) :
    clampPosition cfg ⟨x, y⟩ r = ⟨x, y⟩ := by
  rw [clampPosition, if_neg (by simp [hf])]
  show (⟨max 0 (min (cfg.width - r * 2) x), max 0 (min (cfg.height - r * 2) y)⟩ : Position)
    = ⟨x, y⟩
  rw [min_eq_right hxw, max_eq_right hx0, min_eq_right hyh, max_eq_right hy0]

/-! ### Basic frame lemmas for the individual operations -/

@[simp] lemma setPosition_store (s : State) (id : BubbleId) (p : Position) :
    (setPosition s id p).store = s.store := by
  unfold setPosition; split_ifs <;> rfl

@[simp] lemma setPosition_dragging (s : State) (id : BubbleId) (p : Position) :
    (setPosition s id p).dragging = s.dragging := by
  unfold setPosition; split_ifs <;> rfl

lemma setPosition_handlePos_of_dragging {s : State} {c : BubbleId}
    (h : s.dragging c = true) (id : BubbleId) (p : Position) :
    (setPosition s id p).handlePos c = s.handlePos c := by
  unfold setPosition
  split_ifs with h1
  · rfl
  · show (if c = id then p else s.handlePos c) = s.handlePos c
    rw [if_neg]
    rintro rfl
    exact h1 h

lemma applyCollisionWrites_dragging (s : State) (idA idB : BubbleId) (pA pB : Position) :
    (applyCollisionWrites s idA idB pA pB).dragging = s.dragging := by
  simp only [applyCollisionWrites]
  split_ifs <;> rfl

lemma applyCollisionWrites_handlePos (s : State) (idA idB : BubbleId) (pA pB : Position) :
    (applyCollisionWrites s idA idB pA pB).handlePos = s.handlePos := by
  simp only [applyCollisionWrites]
  split_ifs <;> rfl

lemma applyCollisionWrites_store_ne (s : State) {c idA idB : BubbleId} (pA pB : Position)
    (hA : c ≠ idA) (hB : c ≠ idB) :
    (applyCollisionWrites s idA idB pA pB).store c = s.store c := by
  simp only [applyCollisionWrites]
  split_ifs <;> simp [hA, hB]

lemma applyCollisionWrites_store_of_dragging {s : State} {c : BubbleId}
    (h : s.dragging c = true) (idA idB : BubbleId) (pA pB : Position) :
    (applyCollisionWrites s idA idB pA pB).store c = s.store c := by
  simp only [applyCollisionWrites]
  split_ifs with h1 h2 h3
  · rfl
  · have hcB : c ≠ idB := fun e => h2 (e ▸ h)
    simp [hcB]
  · have hcA : c ≠ idA := fun e => h1 (e ▸ h)
    simp [hcA]
  · have hcA : c ≠ idA := fun e => h1 (e ▸ h)
    have hcB : c ≠ idB := fun e => h3 (e ▸ h)
    simp [hcA, hcB]

lemma applyCollisionWrites_store_idA {s : State} {idA idB : BubbleId} (pA pB : Position)
    (hA : s.dragging idA = false) (hne : idA ≠ idB) :
    (applyCollisionWrites s idA idB pA pB).store idA = pA := by
  simp only [applyCollisionWrites]
  split_ifs with h1 h2 h3
  · rw [hA] at h1; exact absurd h1 (by simp)
  · rw [hA] at h1; exact absurd h1 (by simp)
  · simp
  · simp [hne]

lemma applyCollisionWrites_store_idB {s : State} {idA idB : BubbleId} (pA pB : Position)
    (hB : s.dragging idB = false) :
    (applyCollisionWrites s idA idB pA pB).store idB = pB := by
  simp only [applyCollisionWrites]
  split_ifs with h1 h2 h3
  · rw [hB] at h2; exact absurd h2 (by simp)
  · simp
  · rw [updateBubblePosition_dragging, hB] at h3; exact absurd h3 (by simp)
  · simp

/-- On the non-nudge path (positive distance, corrective displacement at least
0.5px on some axis) `handleCollision` reduces to the guarded clamped writes of
the exact half-overlap correction. -/
lemma handleCollision_eq_of_no_nudge (cfg : Config) (s : State) (idA idB : BubbleId)
    (dx dy d moveX moveY : ℝ)
    (hdx : dx = (s.store idB).x - (s.store idA).x)
    (hdy : dy = (s.store idB).y - (s.store idA).y)
    (hd : d = hypot dx dy) (h0 : ¬ d = 0)
    (hmx : moveX = dx / d * ((cfg.bubbleRadius * 2 + 10 - d) / 2))
    (hmy : moveY = dy / d * ((cfg.bubbleRadius * 2 + 10 - d) / 2))
    (hnn : ¬ (|moveX| < 0.5 ∧ |moveY| < 0.5)) :
    handleCollision cfg s idA idB =
      applyCollisionWrites s idA idB
        (clampPosition cfg ⟨(s.store idA).x - moveX, (s.store idA).y - moveY⟩ cfg.bubbleRadius)
        (clampPosition cfg ⟨(s.store idB).x + moveX, (s.store idB).y + moveY⟩ cfg.bubbleRadius) := by
  simp only [handleCollision, getDistanceData_dx, getDistanceData_dy, getDistanceData_minDist]
  rw [← hdx, ← hdy, ← hd, if_neg h0, ← hmx, ← hmy, if_neg hnn, if_neg hnn]

/-- On the nudge path (positive distance but both corrective displacements
below 0.5px) `handleCollision` writes the deterministic 1px nudge instead of
the exact correction. -/
lemma handleCollision_eq_of_nudge (cfg : Config) (s : State) (idA idB : BubbleId)
    (dx dy d nx ny : ℝ)
    (hdx : dx = (s.store idB).x - (s.store idA).x)
    (hdy : dy = (s.store idB).y - (s.store idA).y)
    (hd : d = hypot dx dy) (h0 : ¬ d = 0)
    (hnn : |dx / d * ((cfg.bubbleRadius * 2 + 10 - d) / 2)| < 0.5 ∧
      |dy / d * ((cfg.bubbleRadius * 2 + 10 - d) / 2)| < 0.5)
    (hnx : nx = if dx = 0 then 1 else dx / |dx| * 1)
    (hny : ny = if dy = 0 then 1 else dy / |dy| * 1) :
    handleCollision cfg s idA idB =
      applyCollisionWrites s idA idB
        (clampPosition cfg ⟨(s.store idA).x - nx, (s.store idA).y - ny⟩ cfg.bubbleRadius)
        (clampPosition cfg ⟨(s.store idB).x + nx, (s.store idB).y + ny⟩ cfg.bubbleRadius) := by
  simp only [handleCollision, getDistanceData_dx, getDistanceData_dy, getDistanceData_minDist]
  rw [← hdx, ← hdy, ← hd, if_neg h0, if_pos hnn, if_pos hnn, ← hnx, ← hny]

lemma handleCollision_eq_writes (cfg : Config) (s : State) (idA idB : BubbleId) :
    handleCollision cfg s idA idB = s ∨
      ∃ qA qB : Position,
        handleCollision cfg s idA idB = applyCollisionWrites s idA idB
          (clampPosition cfg qA cfg.bubbleRadius) (clampPosition cfg qB cfg.bubbleRadius) := by
  by_cases h0 :
      hypot (getDistanceData cfg s idA idB).dx (getDistanceData cfg s idA idB).dy = 0
  · left
    simp only [handleCollision]
    rw [if_pos h0]
  · right
    simp only [handleCollision]
    rw [if_neg h0]
    exact ⟨_, _, rfl⟩

lemma handleCollision_dragging (cfg : Config) (s : State) (idA idB : BubbleId) :
    (handleCollision cfg s idA idB).dragging = s.dragging := by
  rcases handleCollision_eq_writes cfg s idA idB with h | ⟨qA, qB, h⟩
  · rw [h]
  · rw [h, applyCollisionWrites_dragging]

lemma handleCollision_handlePos (cfg : Config) (s : State) (idA idB : BubbleId) :
    (handleCollision cfg s idA idB).handlePos = s.handlePos := by
  rcases handleCollision_eq_writes cfg s idA idB with h | ⟨qA, qB, h⟩
  · rw [h]
  · rw [h, applyCollisionWrites_handlePos]

lemma handleCollision_store_ne (cfg : Config) (s : State) {c idA idB : BubbleId}
    (hA : c ≠ idA) (hB : c ≠ idB) :
    (handleCollision cfg s idA idB).store c = s.store c := by
  rcases handleCollision_eq_writes cfg s idA idB with h | ⟨qA, qB, h⟩
  · rw [h]
  · rw [h, applyCollisionWrites_store_ne s _ _ hA hB]

lemma handleCollision_store_of_dragging {s : State} {c : BubbleId} (cfg : Config)
    (h : s.dragging c = true) (idA idB : BubbleId) :
    (handleCollision cfg s idA idB).store c = s.store c := by
  rcases handleCollision_eq_writes cfg s idA idB with heq | ⟨pA, pB, heq⟩
  · rw [heq]
  · rw [heq, applyCollisionWrites_store_of_dragging h]

lemma homingFoldStep_dragging (cfg : Config) (ig : Bool) (acc : State × Bool) (item : BubbleId) :
    (homingFoldStep cfg ig acc item).1.dragging = acc.1.dragging := by
  simp only [homingFoldStep]
  split_ifs <;> rfl

lemma homingFoldStep_handlePos (cfg : Config) (ig : Bool) (acc : State × Bool) (item : BubbleId) :
    (homingFoldStep cfg ig acc item).1.handlePos = acc.1.handlePos := by
  simp only [homingFoldStep]
  split_ifs <;> rfl

lemma homingFoldStep_store_ne (cfg : Config) (ig : Bool) (acc : State × Bool)
    {c item : BubbleId} (h : c ≠ item) :
    (homingFoldStep cfg ig acc item).1.store c = acc.1.store c := by
  simp only [homingFoldStep]
  split_ifs <;> simp [h]

lemma homingFoldStep_store_of_dragging (cfg : Config) (ig : Bool) {acc : State × Bool}
    {c : BubbleId} (h : acc.1.dragging c = true) (item : BubbleId) :
    (homingFoldStep cfg ig acc item).1.store c = acc.1.store c := by
  by_cases hc : c = item
  · subst hc
    simp only [homingFoldStep]
    rw [if_pos h]
  · exact homingFoldStep_store_ne cfg ig acc hc

lemma foldl_homing_dragging (cfg : Config) (ig : Bool) (l : List BubbleId) (acc : State × Bool) :
    (l.foldl (homingFoldStep cfg ig) acc).1.dragging = acc.1.dragging := by
  induction l generalizing acc with
  | nil => rfl
  | cons a t ih => rw [List.foldl_cons, ih, homingFoldStep_dragging]

lemma foldl_homing_handlePos (cfg : Config) (ig : Bool) (l : List BubbleId) (acc : State × Bool) :
    (l.foldl (homingFoldStep cfg ig) acc).1.handlePos = acc.1.handlePos := by
  induction l generalizing acc with
  | nil => rfl
  | cons a t ih => rw [List.foldl_cons, ih, homingFoldStep_handlePos]

lemma foldl_homing_store_ne (cfg : Config) (ig : Bool) {l : List BubbleId} {c : BubbleId}
    (h : c ∉ l) (acc : State × Bool) :
    (l.foldl (homingFoldStep cfg ig) acc).1.store c = acc.1.store c := by
  induction l generalizing acc with
  | nil => rfl
  | cons a t ih =>
    rw [List.foldl_cons, ih (fun hm => h (List.mem_cons_of_mem a hm)),
      homingFoldStep_store_ne cfg ig acc (fun e => h (by rw [e]; exact List.mem_cons_self a t))]

lemma foldl_homing_store_of_dragging (cfg : Config) (ig : Bool) (l : List BubbleId)
    {acc : State × Bool} {c : BubbleId} (h : acc.1.dragging c = true) :
    (l.foldl (homingFoldStep cfg ig) acc).1.store c = acc.1.store c := by
  induction l generalizing acc with
  | nil => rfl
  | cons a t ih =>
    rw [List.foldl_cons, ih (by rw [homingFoldStep_dragging]; exact h),
      homingFoldStep_store_of_dragging cfg ig h]

lemma moveBubblesBack_dragging (cfg : Config) (ig : Bool) (s : State) :
    (moveBubblesBackToInitialPositions cfg ig s).1.dragging = s.dragging :=
  foldl_homing_dragging cfg ig cfg.items (s, false)

lemma moveBubblesBack_handlePos (cfg : Config) (ig : Bool) (s : State) :
    (moveBubblesBackToInitialPositions cfg ig s).1.handlePos = s.handlePos :=
  foldl_homing_handlePos cfg ig cfg.items (s, false)

lemma moveBubblesBack_store_of_dragging (cfg : Config) (ig : Bool) {s : State} {c : BubbleId}
    (h : s.dragging c = true) :
    (moveBubblesBackToInitialPositions cfg ig s).1.store c = s.store c :=
  foldl_homing_store_of_dragging cfg ig cfg.items h

/-! ### C1: drag exclusivity -/

lemma applyOp_engine_dragging (cfg : Config) (s : State) {op : Op}
    (hop : op.isEngineSide = true) :
    (applyOp cfg s op).dragging = s.dragging := by
  cases op with
  | setPos id p => exact setPosition_dragging s id p
  | resolve idA idB => exact handleCollision_dragging cfg s idA idB
  | homing ig => exact moveBubblesBack_dragging cfg ig s
  | dragGrant id => exact absurd hop (by simp [Op.isEngineSide])
  | dragMove id g fl => exact absurd hop (by simp [Op.isEngineSide])
  | dragRelease id => exact absurd hop (by simp [Op.isEngineSide])

lemma applyOp_engine_store_of_dragging (cfg : Config) {s : State} {c : BubbleId}
    (h : s.dragging c = true) {op : Op} (hop : op.isEngineSide = true) :
    (applyOp cfg s op).store c = s.store c := by
  cases op with
  | setPos id p =>
    show (setPosition s id p).store c = s.store c
    rw [setPosition_store]
  | resolve idA idB => exact handleCollision_store_of_dragging cfg h idA idB
  | homing ig => exact moveBubblesBack_store_of_dragging cfg ig h
  | dragGrant id => exact absurd hop (by simp [Op.isEngineSide])
  | dragMove id g fl => exact absurd hop (by simp [Op.isEngineSide])
  | dragRelease id => exact absurd hop (by simp [Op.isEngineSide])

lemma applyOp_engine_handlePos_of_dragging (cfg : Config) {s : State} {c : BubbleId}
    (h : s.dragging c = true) {op : Op} (hop : op.isEngineSide = true) :
    (applyOp cfg s op).handlePos c = s.handlePos c := by
  cases op with
  | setPos id p => exact setPosition_handlePos_of_dragging h id p
  | resolve idA idB =>
    show (handleCollision cfg s idA idB).handlePos c = s.handlePos c
    rw [handleCollision_handlePos]
  | homing ig =>
    show (moveBubblesBackToInitialPositions cfg ig s).1.handlePos c = s.handlePos c
    rw [moveBubblesBack_handlePos]
  | dragGrant id => exact absurd hop (by simp [Op.isEngineSide])
  | dragMove id g fl => exact absurd hop (by simp [Op.isEngineSide])
  | dragRelease id => exact absurd hop (by simp [Op.isEngineSide])

/-- C1.  Drag exclusivity: while a bubble's `isDragging` flag is true, any
sequence of engine-side operations (handle `setPosition` calls, collision
resolutions, homing passes) leaves both its LogicalPosition store entry and its
handle position unchanged; only the drag gesture adapter's operations (which
are not engine-side) can change them during that interval. -/
theorem drag_exclusivity (cfg : Config) (s : State) (id : BubbleId)
    (h : s.dragging id = true) (ops : List Op)
    (hops : ∀ op ∈ ops, op.isEngineSide = true) :
    (applyOps cfg ops s).store id = s.store id ∧
      (applyOps cfg ops s).handlePos id = s.handlePos id := by
  induction ops generalizing s with
  | nil => exact ⟨rfl, rfl⟩
  | cons op t ih =>
    have hop : op.isEngineSide = true := hops op (List.mem_cons_self op t)
    have hd : (applyOp cfg s op).dragging id = true := by
      rw [applyOp_engine_dragging cfg s hop]; exact h
    have ht := ih (applyOp cfg s op) hd (fun o ho => hops o (List.mem_cons_of_mem op ho))
    refine ⟨?_, ?_⟩
    · rw [applyOps, List.foldl_cons, ← applyOps, ht.1,
        applyOp_engine_store_of_dragging cfg h hop]
    · rw [applyOps, List.foldl_cons, ← applyOps, ht.2,
        applyOp_engine_handlePos_of_dragging cfg h hop]

/-- Witness for C1 at a concrete dragged bubble and a concrete engine-side
write sequence. -/
theorem drag_exclusivity_witness :
    ∃ cfg : Config, ∃ s : State,
      (applyOps cfg [ Op.setPos "a" ⟨1, 2⟩, Op.resolve "a" "b", Op.homing true ] s).store "a" =
        s.store "a" := by
  refine ⟨⟨[ "a", "b" ], fun _ => ⟨100, 100⟩, 1000, 1000, 50, 100, 4, false⟩,
    ⟨fun _ => ⟨100, 100⟩, fun _ => ⟨100, 100⟩, fun c => c = "a"⟩, ?_⟩
  exact (drag_exclusivity _ _ "a" (by simp) _
    (by intro op hop; simp only [List.mem_cons] at hop
        rcases hop with rfl | rfl | rfl | h
        · rfl
        · rfl
        · rfl
        · exact absurd h (List.not_mem_nil op))).1

/-! ### C10: write footprint of a resolve call -/

/-- C10.  A `handleCollision` call on `idA`, `idB` mutates at most the store
entries of `idA` and `idB`: every other bubble's LogicalPosition is unchanged,
and the handle positions and drag flags are untouched entirely.  The query
operations (`getDistanceData`, `checkCollision`, `checkIndividualCollision`,
`isBubbleOutOfPosition`, `willCollideAtPosition`) are embedded as pure
functions of the state — the source only reads the store in them — so they
cannot mutate the position store. -/
theorem handleCollision_frame (cfg : Config) (s : State) (idA idB c : BubbleId)
    (hA : c ≠ idA) (hB : c ≠ idB) :
    (handleCollision cfg s idA idB).store c = s.store c ∧
      (handleCollision cfg s idA idB).handlePos = s.handlePos ∧
      (handleCollision cfg s idA idB).dragging = s.dragging :=
  ⟨handleCollision_store_ne cfg s hA hB, handleCollision_handlePos cfg s idA idB,
    handleCollision_dragging cfg s idA idB⟩

/-! ### C6: center invariant of the layout calculator -/

/-- C6.  For every item list and every `menuDistance` (and every other
configuration), the first bubble's computed home position, before the
`constrainToWindow` clamp, equals container center minus `bubbleRadius` on each
axis; equivalently, the bubble-center's distance from the container center is
zero. -/
theorem center_bubble_invariant (cfg : Config) :
    unconstrainedInitialPosition cfg 0 =
      ⟨cfg.width / 2 - cfg.bubbleRadius, cfg.height / 2 - cfg.bubbleRadius⟩ ∧
      hypot ((unconstrainedInitialPosition cfg 0).x + cfg.bubbleRadius - cfg.width / 2)
        ((unconstrainedInitialPosition cfg 0).y + cfg.bubbleRadius - cfg.height / 2) = 0 := by
  have h : unconstrainedInitialPosition cfg 0 =
      ⟨cfg.width / 2 - cfg.bubbleRadius, cfg.height / 2 - cfg.bubbleRadius⟩ := by
    simp [unconstrainedInitialPosition]
  refine ⟨h, ?_⟩
  rw [h]
  show hypot (cfg.width / 2 - cfg.bubbleRadius + cfg.bubbleRadius - cfg.width / 2)
    (cfg.height / 2 - cfg.bubbleRadius + cfg.bubbleRadius - cfg.height / 2) = 0
  rw [show cfg.width / 2 - cfg.bubbleRadius + cfg.bubbleRadius - cfg.width / 2 = (0 : ℝ) by ring,
    show cfg.height / 2 - cfg.bubbleRadius + cfg.bubbleRadius - cfg.height / 2 = (0 : ℝ) by ring,
    hypot_zero_zero]

/-! ### C3: behaviour of a resolve call on coincident bubbles

The spec claims a resolve call on two bubbles at identical coordinates
separates them by at least the 1px nudge.  The code instead returns before the
nudge is ever computed: `handleCollision` bails out on `distance === 0`
(BubbleMenu.tsx line 181), so coincident bubbles are left exactly where they
are (and no division by zero occurs — the division is never reached).  The
nudge branch only fires at small positive distances. -/

/-- C3 counterexample.  Two bubbles stored at identical coordinates: one
resolve call leaves the state unchanged, and the post-resolution separation is
0, not at least the 1px nudge magnitude claimed. -/
theorem coincident_nudge_cex :
    let cfg : Config := ⟨[ "a", "b" ], fun _ => ⟨100, 100⟩, 1000, 1000, 50, 100, 4, false⟩
    let s : State := ⟨fun _ => ⟨100, 100⟩, fun _ => ⟨100, 100⟩, fun _ => false⟩
    handleCollision cfg s "a" "b" = s ∧
      hypot (((handleCollision cfg s "a" "b").store "b").x -
          ((handleCollision cfg s "a" "b").store "a").x)
        (((handleCollision cfg s "a" "b").store "b").y -
          ((handleCollision cfg s "a" "b").store "a").y) < 1 := by
  intro cfg s
  have h : handleCollision cfg s "a" "b" = s := by
    simp [handleCollision, hypot_zero_zero]
  refine ⟨h, ?_⟩
  rw [h]
  show hypot ((100 : ℝ) - 100) ((100 : ℝ) - 100) < 1
  rw [show (100 : ℝ) - 100 = 0 by ring, hypot_zero_zero]
  norm_num

/-- C3 amended.  A resolve call on two bubbles whose stored positions coincide
(center distance 0) is a no-op: the zero-distance guard returns before the
division and before the nudge, so both positions are unchanged and no
division-by-zero fault occurs. -/
theorem coincident_resolve_noop (cfg : Config) (s : State) (idA idB : BubbleId)
    (h : s.store idA = s.store idB) :
    handleCollision cfg s idA idB = s := by
  simp [handleCollision, h, hypot_zero_zero]

/-- Witness for the amended C3 at a concrete coincident pair. -/
theorem coincident_resolve_noop_witness :
    handleCollision ⟨[ "a", "b" ], fun _ => ⟨100, 100⟩, 1000, 1000, 50, 100, 4, false⟩
      ⟨fun _ => ⟨0, 7⟩, fun _ => ⟨0, 7⟩, fun _ => false⟩ "a" "b" =
      ⟨fun _ => ⟨0, 7⟩, fun _ => ⟨0, 7⟩, fun _ => false⟩ :=
  coincident_resolve_noop _ _ "a" "b" rfl

/-! ### C2: collision correction exactness

The spec claims a single resolve call on a pair at distance `0 < d < m` always
restores distance exactly `m` (absent clamping).  That is only true on the
non-nudge path: when the half-overlap correction is below 0.5px on both axes
(`d` close to `m`), the code substitutes the fixed 1px nudge and the resulting
distance overshoots `m`. -/

/-- C2 counterexample.  Two non-dragged bubbles at distance 109.5 < minDist 110
(so `0 < d < m`), clamping not taking effect: the resolve call takes the nudge
branch and the post-resolution distance is `hypot 111.5 2`, not 110 — off by
more than 1.5px, beyond any floating tolerance. -/
theorem collision_exactness_cex :
    let cfg : Config := ⟨[ "a", "b" ], fun _ => ⟨100, 100⟩, 1000, 1000, 50, 100, 4, false⟩
    let s : State := ⟨fun id => if id = "a" then ⟨100, 100⟩ else ⟨209.5, 100⟩,
      fun _ => ⟨0, 0⟩, fun _ => false⟩
    hypot ((s.store "b").x - (s.store "a").x) ((s.store "b").y - (s.store "a").y) = 109.5 ∧
      (0 : ℝ) < 109.5 ∧ (109.5 : ℝ) < cfg.bubbleRadius * 2 + 10 ∧
      clampPosition cfg ⟨99, 99⟩ cfg.bubbleRadius = ⟨99, 99⟩ ∧
      clampPosition cfg ⟨210.5, 101⟩ cfg.bubbleRadius = ⟨210.5, 101⟩ ∧
      (handleCollision cfg s "a" "b").store "a" = ⟨99, 99⟩ ∧
      (handleCollision cfg s "a" "b").store "b" = ⟨210.5, 101⟩ ∧
      hypot (((handleCollision cfg s "a" "b").store "b").x -
          ((handleCollision cfg s "a" "b").store "a").x)
        (((handleCollision cfg s "a" "b").store "b").y -
          ((handleCollision cfg s "a" "b").store "a").y) ≠ cfg.bubbleRadius * 2 + 10 ∧
      cfg.bubbleRadius * 2 + 10 + 1 <
        hypot (((handleCollision cfg s "a" "b").store "b").x -
            ((handleCollision cfg s "a" "b").store "a").x)
          (((handleCollision cfg s "a" "b").store "b").y -
            ((handleCollision cfg s "a" "b").store "a").y) := by
  intro cfg s
  have ha : s.store "a" = ⟨100, 100⟩ := rfl
  have hb : s.store "b" = ⟨209.5, 100⟩ := rfl
  have hr : cfg.bubbleRadius = 50 := rfl
  have hw : cfg.width = 1000 := rfl
  have hh : cfg.height = 1000 := rfl
  have hdx : (109.5 : ℝ) = (s.store "b").x - (s.store "a").x := by
    rw [ha, hb]; norm_num
  have hdy : (0 : ℝ) = (s.store "b").y - (s.store "a").y := by
    rw [ha, hb]; norm_num
  have hd : (109.5 : ℝ) = hypot 109.5 0 := (hypot_zero_right _ (by norm_num)).symm
  have h0 : ¬ (109.5 : ℝ) = 0 := by norm_num
  have hnn : |(109.5 : ℝ) / 109.5 * ((cfg.bubbleRadius * 2 + 10 - 109.5) / 2)| < 0.5 ∧
      |(0 : ℝ) / 109.5 * ((cfg.bubbleRadius * 2 + 10 - 109.5) / 2)| < 0.5 := by
    rw [hr]
    constructor
    · rw [abs_of_nonneg (by norm_num)]; norm_num
    · rw [abs_of_nonneg (by norm_num)]; norm_num
  have hnx : (1 : ℝ) = if (109.5 : ℝ) = 0 then 1 else 109.5 / |(109.5 : ℝ)| * 1 := by
    rw [if_neg h0, abs_of_nonneg (by norm_num : (0 : ℝ) ≤ 109.5)]
    norm_num
  have hny : (1 : ℝ) = if (0 : ℝ) = 0 then 1 else 0 / |(0 : ℝ)| * 1 := by
    rw [if_pos rfl]
  have heq := handleCollision_eq_of_nudge cfg s "a" "b" 109.5 0 109.5 1 1
    hdx hdy hd h0 hnn hnx hny
  have hclA : clampPosition cfg ⟨(s.store "a").x - 1, (s.store "a").y - 1⟩ cfg.bubbleRadius
      = ⟨99, 99⟩ := by
    rw [ha]
    show clampPosition cfg ⟨(100 : ℝ) - 1, (100 : ℝ) - 1⟩ cfg.bubbleRadius = ⟨99, 99⟩
    rw [show (100 : ℝ) - 1 = 99 by norm_num]
    exact clampPosition_eq_self cfg 99 99 cfg.bubbleRadius rfl (by norm_num)
      (by rw [hw, hr]; norm_num) (by norm_num) (by rw [hh, hr]; norm_num)
  have hclB : clampPosition cfg ⟨(s.store "b").x + 1, (s.store "b").y + 1⟩ cfg.bubbleRadius
      = ⟨210.5, 101⟩ := by
    rw [hb]
    show clampPosition cfg ⟨(209.5 : ℝ) + 1, (100 : ℝ) + 1⟩ cfg.bubbleRadius = ⟨210.5, 101⟩
    rw [show (209.5 : ℝ) + 1 = 210.5 by norm_num, show (100 : ℝ) + 1 = 101 by norm_num]
    exact clampPosition_eq_self cfg 210.5 101 cfg.bubbleRadius rfl (by norm_num)
      (by rw [hw, hr]; norm_num) (by norm_num) (by rw [hh, hr]; norm_num)
  have hsa : (handleCollision cfg s "a" "b").store "a" = ⟨99, 99⟩ := by
    rw [heq, applyCollisionWrites_store_idA _ _ rfl (by decide), hclA]
  have hsb : (handleCollision cfg s "a" "b").store "b" = ⟨210.5, 101⟩ := by
    rw [heq, applyCollisionWrites_store_idB _ _ rfl, hclB]
  refine ⟨by rw [← hdx, ← hdy, ← hd], by norm_num, by rw [hr]; norm_num,
    clampPosition_eq_self cfg 99 99 cfg.bubbleRadius rfl (by norm_num)
      (by rw [hw, hr]; norm_num) (by norm_num) (by rw [hh, hr]; norm_num),
    clampPosition_eq_self cfg 210.5 101 cfg.bubbleRadius rfl (by norm_num)
      (by rw [hw, hr]; norm_num) (by norm_num) (by rw [hh, hr]; norm_num),
    hsa, hsb, ?_, ?_⟩
  · rw [hsa, hsb]
    show hypot ((210.5 : ℝ) - 99) ((101 : ℝ) - 99) ≠ cfg.bubbleRadius * 2 + 10
    rw [hr]
    intro hcontra
    have hsq : hypot ((210.5 : ℝ) - 99) ((101 : ℝ) - 99) ^ 2 = ((50 : ℝ) * 2 + 10) ^ 2 := by
      rw [hcontra]
    rw [hypot_sq] at hsq
    norm_num at hsq
  · rw [hsa, hsb]
    show cfg.bubbleRadius * 2 + 10 + 1 < hypot ((210.5 : ℝ) - 99) ((101 : ℝ) - 99)
    rw [hr, hypot]
    refine (Real.lt_sqrt (by norm_num)).mpr ?_
    norm_num

/-- C2 amended.  For a pair of non-dragged bubbles with center distance
`0 < d < m` whose half-overlap correction is not replaced by the nudge (at
least 0.5px on some axis) and for which the boundary clamp takes no effect, a
single resolve call yields a post-resolution center distance of exactly `m`. -/
theorem collision_exactness_no_nudge (cfg : Config) (s : State) (idA idB : BubbleId)
    (dx dy d m moveX moveY : ℝ)
    (hdx : dx = (s.store idB).x - (s.store idA).x)
    (hdy : dy = (s.store idB).y - (s.store idA).y)
    (hd : d = hypot dx dy)
    (hm : m = cfg.bubbleRadius * 2 + 10)
    (hmx : moveX = dx / d * ((m - d) / 2))
    (hmy : moveY = dy / d * ((m - d) / 2))
    (h0 : 0 < d) (hdm : d < m)
    (hnn : ¬ (|moveX| < 0.5 ∧ |moveY| < 0.5))
    (hA : s.dragging idA = false) (hB : s.dragging idB = false)
    (hclA : clampPosition cfg ⟨(s.store idA).x - moveX, (s.store idA).y - moveY⟩ cfg.bubbleRadius
      = ⟨(s.store idA).x - moveX, (s.store idA).y - moveY⟩)
    (hclB : clampPosition cfg ⟨(s.store idB).x + moveX, (s.store idB).y + moveY⟩ cfg.bubbleRadius
      = ⟨(s.store idB).x + moveX, (s.store idB).y + moveY⟩) :
    hypot (((handleCollision cfg s idA idB).store idB).x -
        ((handleCollision cfg s idA idB).store idA).x)
      (((handleCollision cfg s idA idB).store idB).y -
        ((handleCollision cfg s idA idB).store idA).y) = m := by
  have hd0 : ¬ d = 0 := ne_of_gt h0
  have hne : idA ≠ idB := by
    rintro rfl
    have e1 : dx = 0 := by rw [hdx, sub_self]
    have e2 : dy = 0 := by rw [hdy, sub_self]
    rw [hd, e1, e2, hypot_zero_zero] at h0
    exact lt_irrefl 0 h0
  have hmx' : moveX = dx / d * ((cfg.bubbleRadius * 2 + 10 - d) / 2) := by rw [hmx, hm]
  have hmy' : moveY = dy / d * ((cfg.bubbleRadius * 2 + 10 - d) / 2) := by rw [hmy, hm]
  have heq := handleCollision_eq_of_no_nudge cfg s idA idB dx dy d moveX moveY
    hdx hdy hd hd0 hmx' hmy' hnn
  rw [heq, applyCollisionWrites_store_idA _ _ hA hne, applyCollisionWrites_store_idB _ _ hB,
    hclA, hclB]
  show hypot ((s.store idB).x + moveX - ((s.store idA).x - moveX))
    ((s.store idB).y + moveY - ((s.store idA).y - moveY)) = m
  have e1 : (s.store idB).x + moveX - ((s.store idA).x - moveX) = m / d * dx := by
    have hbx : (s.store idB).x = dx + (s.store idA).x := by rw [hdx]; ring
    rw [hbx, hmx]
    field_simp
    ring
  have e2 : (s.store idB).y + moveY - ((s.store idA).y - moveY) = m / d * dy := by
    have hby : (s.store idB).y = dy + (s.store idA).y := by rw [hdy]; ring
    rw [hby, hmy]
    field_simp
    ring
  rw [e1, e2, hypot_scale, ← hd, abs_of_pos (div_pos (lt_trans h0 hdm) h0)]
  field_simp

/-- Witness for the amended C2: a concrete pair at distance 60, minDist 110;
the resolve call restores distance exactly 110. -/
theorem collision_exactness_no_nudge_witness :
    let cfg : Config := ⟨[ "a", "b" ], fun _ => ⟨100, 100⟩, 1000, 1000, 50, 100, 4, false⟩
    let s : State := ⟨fun id => if id = "a" then ⟨100, 100⟩ else ⟨160, 100⟩,
      fun _ => ⟨0, 0⟩, fun _ => false⟩
    hypot (((handleCollision cfg s "a" "b").store "b").x -
        ((handleCollision cfg s "a" "b").store "a").x)
      (((handleCollision cfg s "a" "b").store "b").y -
        ((handleCollision cfg s "a" "b").store "a").y) = 110 := by
  intro cfg s
  have ha : s.store "a" = ⟨100, 100⟩ := rfl
  have hb : s.store "b" = ⟨160, 100⟩ := rfl
  have hr : cfg.bubbleRadius = 50 := rfl
  have hw : cfg.width = 1000 := rfl
  have hh : cfg.height = 1000 := rfl
  refine collision_exactness_no_nudge cfg s "a" "b" 60 0 60 110 25 0
    (by rw [ha, hb]; norm_num) (by rw [ha, hb]; norm_num)
    ((hypot_zero_right _ (by norm_num)).symm) (by rw [hr]; norm_num)
    (by norm_num) (by norm_num) (by norm_num) (by norm_num) ?_ rfl rfl ?_ ?_
  · intro hcon
    have h1 := hcon.1
    rw [abs_of_nonneg (by norm_num : (0 : ℝ) ≤ 25)] at h1
    norm_num at h1
  · rw [ha]
    show clampPosition cfg ⟨(100 : ℝ) - 25, (100 : ℝ) - 0⟩ cfg.bubbleRadius
      = ⟨(100 : ℝ) - 25, (100 : ℝ) - 0⟩
    exact clampPosition_eq_self cfg (100 - 25) (100 - 0) cfg.bubbleRadius rfl (by norm_num)
      (by rw [hw, hr]; norm_num) (by norm_num) (by rw [hh, hr]; norm_num)
  · rw [hb]
    show clampPosition cfg ⟨(160 : ℝ) + 25, (100 : ℝ) + 0⟩ cfg.bubbleRadius
      = ⟨(160 : ℝ) + 25, (100 : ℝ) + 0⟩
    exact clampPosition_eq_self cfg (160 + 25) (100 + 0) cfg.bubbleRadius rfl (by norm_num)
      (by rw [hw, hr]; norm_num) (by norm_num) (by rw [hh, hr]; norm_num)

/-! ### C4: the dragged-overlap scenario

The spec's example scenario claims the non-dragged bubble B is displaced by
the full overlap amount (90px for distance 20 and minDist 110).  The code
moves each bubble `overlap / 2`; since the dragged bubble A is excluded from
the write, B only moves half the overlap (45px) and the pair remains
overlapping after the tick. -/

/-- C4 counterexample.  Bubble 'a' is drag-owned at distance 20 from 'b' with
minDist 110: the resolve call leaves 'a' unchanged but displaces 'b' by 45px —
half the overlap — not the claimed 90px. -/
theorem dragged_overlap_cex :
    let cfg : Config := ⟨[ "a", "b" ], fun _ => ⟨100, 100⟩, 1000, 1000, 50, 100, 4, false⟩
    let s : State := ⟨fun id => if id = "a" then ⟨100, 100⟩ else ⟨120, 100⟩,
      fun _ => ⟨0, 0⟩, fun id => id = "a"⟩
    hypot ((s.store "b").x - (s.store "a").x) ((s.store "b").y - (s.store "a").y) = 20 ∧
      cfg.bubbleRadius * 2 + 10 = 110 ∧
      s.dragging "a" = true ∧
      (handleCollision cfg s "a" "b").store "a" = s.store "a" ∧
      (handleCollision cfg s "a" "b").store "b" = ⟨165, 100⟩ ∧
      hypot (((handleCollision cfg s "a" "b").store "b").x - (s.store "b").x)
        (((handleCollision cfg s "a" "b").store "b").y - (s.store "b").y) = 45 ∧
      (45 : ℝ) ≠ 90 := by
  intro cfg s
  have ha : s.store "a" = ⟨100, 100⟩ := rfl
  have hb : s.store "b" = ⟨120, 100⟩ := rfl
  have hr : cfg.bubbleRadius = 50 := rfl
  have hw : cfg.width = 1000 := rfl
  have hh : cfg.height = 1000 := rfl
  have hdx : (20 : ℝ) = (s.store "b").x - (s.store "a").x := by rw [ha, hb]; norm_num
  have hdy : (0 : ℝ) = (s.store "b").y - (s.store "a").y := by rw [ha, hb]; norm_num
  have hd : (20 : ℝ) = hypot 20 0 := (hypot_zero_right _ (by norm_num)).symm
  have hmx : (45 : ℝ) = 20 / 20 * ((cfg.bubbleRadius * 2 + 10 - 20) / 2) := by
    rw [hr]; norm_num
  have hmy : (0 : ℝ) = 0 / 20 * ((cfg.bubbleRadius * 2 + 10 - 20) / 2) := by
    rw [hr]; norm_num
  have hnn : ¬ (|(45 : ℝ)| < 0.5 ∧ |(0 : ℝ)| < 0.5) := by
    intro hcon
    have h1 := hcon.1
    rw [abs_of_nonneg (by norm_num : (0 : ℝ) ≤ 45)] at h1
    norm_num at h1
  have heq := handleCollision_eq_of_no_nudge cfg s "a" "b" 20 0 20 45 0
    hdx hdy hd (by norm_num) hmx hmy hnn
  have hsa : (handleCollision cfg s "a" "b").store "a" = s.store "a" := by
    rw [heq]
    exact applyCollisionWrites_store_of_dragging rfl "a" "b" _ _
  have hsb : (handleCollision cfg s "a" "b").store "b" = ⟨165, 100⟩ := by
    rw [heq, applyCollisionWrites_store_idB _ _ rfl, hb]
    show clampPosition cfg ⟨(120 : ℝ) + 45, (100 : ℝ) + 0⟩ cfg.bubbleRadius = ⟨165, 100⟩
    rw [show (120 : ℝ) + 45 = 165 by norm_num, show (100 : ℝ) + 0 = 100 by norm_num]
    exact clampPosition_eq_self cfg 165 100 cfg.bubbleRadius rfl (by norm_num)
      (by rw [hw, hr]; norm_num) (by norm_num) (by rw [hh, hr]; norm_num)
  refine ⟨by rw [← hdx, ← hdy, ← hd], by rw [hr]; norm_num, rfl, hsa, hsb, ?_, by norm_num⟩
  rw [hsb, hb]
  show hypot ((165 : ℝ) - 120) ((100 : ℝ) - 100) = 45
  rw [show (165 : ℝ) - 120 = 45 by norm_num, show (100 : ℝ) - 100 = 0 by norm_num]
  exact hypot_zero_right 45 (by norm_num)

/-- C4 amended.  In the dragged-overlap scenario (drag-owned A at distance 20
from B, minDist 110), one resolve call leaves A's LogicalPosition unchanged and
displaces B by half the overlap (45px, not the claimed 90px) along the axis
connecting the centers, clamped to container bounds. -/
theorem dragged_overlap_half_displacement (cfg : Config) (s : State) (idA idB : BubbleId)
    (dx dy moveX moveY : ℝ)
    (hdx : dx = (s.store idB).x - (s.store idA).x)
    (hdy : dy = (s.store idB).y - (s.store idA).y)
    (hd : hypot dx dy = 20)
    (hm : cfg.bubbleRadius * 2 + 10 = 110)
    (hmx : moveX = dx / 20 * (90 / 2))
    (hmy : moveY = dy / 20 * (90 / 2))
    (hA : s.dragging idA = true) (hB : s.dragging idB = false) :
    (handleCollision cfg s idA idB).store idA = s.store idA ∧
      (handleCollision cfg s idA idB).store idB =
        clampPosition cfg ⟨(s.store idB).x + moveX, (s.store idB).y + moveY⟩
          cfg.bubbleRadius ∧
      hypot moveX moveY = 45 := by
  have hmag : hypot moveX moveY = 45 := by
    rw [hmx, hmy, show ∀ t : ℝ, t / 20 * (90 / 2) = 9 / 4 * t from fun t => by ring,
      show ∀ t : ℝ, t / 20 * (90 / 2) = 9 / 4 * t from fun t => by ring,
      hypot_scale, hd, abs_of_pos (by norm_num : (0 : ℝ) < 9 / 4)]
    norm_num
  have hnn : ¬ (|moveX| < 0.5 ∧ |moveY| < 0.5) := by
    intro hcon
    have hle := hypot_le_add_abs moveX moveY
    rw [hmag] at hle
    linarith [hcon.1, hcon.2]
  have hmx' : moveX = dx / 20 * ((cfg.bubbleRadius * 2 + 10 - 20) / 2) := by
    rw [hm, hmx]; norm_num
  have hmy' : moveY = dy / 20 * ((cfg.bubbleRadius * 2 + 10 - 20) / 2) := by
    rw [hm, hmy]; norm_num
  have heq := handleCollision_eq_of_no_nudge cfg s idA idB dx dy 20 moveX moveY
    hdx hdy hd.symm (by norm_num) hmx' hmy' hnn
  refine ⟨?_, ?_, hmag⟩
  · rw [heq]
    exact applyCollisionWrites_store_of_dragging hA idA idB _ _
  · rw [heq, applyCollisionWrites_store_idB _ _ hB]

/-- Witness for the amended C4 at the concrete scenario state. -/
theorem dragged_overlap_half_displacement_witness :
    let cfg : Config := ⟨[ "a", "b" ], fun _ => ⟨100, 100⟩, 1000, 1000, 50, 100, 4, false⟩
    let s : State := ⟨fun id => if id = "a" then ⟨100, 100⟩ else ⟨120, 100⟩,
      fun _ => ⟨0, 0⟩, fun id => id = "a"⟩
    (handleCollision cfg s "a" "b").store "a" = s.store "a" ∧
      (handleCollision cfg s "a" "b").store "b" =
        clampPosition cfg ⟨(s.store "b").x + 45, (s.store "b").y + 0⟩ cfg.bubbleRadius ∧
      hypot 45 0 = 45 := by
  intro cfg s
  have ha : s.store "a" = ⟨100, 100⟩ := rfl
  have hb : s.store "b" = ⟨120, 100⟩ := rfl
  have hr : cfg.bubbleRadius = 50 := rfl
  exact dragged_overlap_half_displacement cfg s "a" "b" 20 0 45 0
    (by rw [ha, hb]; norm_num) (by rw [ha, hb]; norm_num)
    (hypot_zero_right _ (by norm_num)) (by rw [hr]; norm_num)
    (by norm_num) (by norm_num) rfl rfl

/-! ### C9: the sweep of the collision pass -/

lemma mem_sweepPairs {items : List BubbleId} :
    ∀ {checked rest : List BubbleId} {p : BubbleId × BubbleId},
      p ∈ sweepPairs items checked rest →
      p.1 ∈ rest ∧ p.2 ∈ items ∧ p.2 ≠ p.1 ∧ p.2 ∉ checked := by
  intro checked rest
  induction rest generalizing checked with
  | nil =>
    intro p h
    simp only [sweepPairs] at h
    exact absurd h (List.not_mem_nil p)
  | cons a t ih =>
    intro p h
    simp only [sweepPairs] at h
    rcases List.mem_append.mp h with h | h
    · rcases List.mem_map.mp h with ⟨item, hmem, rfl⟩
      have hf := List.mem_filter.mp hmem
      have hcond := of_decide_eq_true hf.2
      exact ⟨List.mem_cons_self a t, hf.1, hcond.1, hcond.2⟩
    · obtain ⟨h1, h2, h3, h4⟩ := ih h
      exact ⟨List.mem_cons_of_mem a h1, h2, h3, fun hc => h4 (List.mem_append_left _ hc)⟩

lemma sweepPairs_pairwise {items : List BubbleId} (hitems : items.Nodup) :
    ∀ (checked rest : List BubbleId), (checked ++ rest).Nodup →
      (sweepPairs items checked rest).Pairwise fun p q => ¬ sameUnorderedPair p q := by
  intro checked rest
  induction rest generalizing checked with
  | nil =>
    intro _
    simp [sweepPairs]
  | cons a t ih =>
    intro hnd
    simp only [sweepPairs]
    rw [List.pairwise_append]
    have hat : (a :: t).Nodup := hnd.of_append_right
    have hanott : a ∉ t := (List.nodup_cons.mp hat).1
    refine ⟨?_, ?_, ?_⟩
    · have hfil : (items.filter fun item => decide (item ≠ a ∧ item ∉ checked)).Nodup :=
        hitems.filter _
      rw [List.pairwise_map]
      refine hfil.imp_of_mem ?_
      intro b b' hb hb' hne hsame
      rcases hsame with he | ⟨h1, h2⟩
      · exact hne (congrArg Prod.snd he)
      · have hb'cond := of_decide_eq_true (List.mem_filter.mp hb').2
        exact hb'cond.1 h1.symm
    · refine ih (checked ++ [ a ]) ?_
      rw [List.append_assoc, List.singleton_append]
      exact hnd
    · intro p hp q hq hsame
      rcases List.mem_map.mp hp with ⟨b, hbmem, rfl⟩
      obtain ⟨hq1, hq2, hq3, hq4⟩ := mem_sweepPairs hq
      rcases hsame with he | ⟨h1, h2⟩
      · rw [← he] at hq1
        exact hanott hq1
      · exact hq4 (h1 ▸ List.mem_append_right checked (List.mem_singleton_self a))

/-- C9.  In one tick's collision pass, only bubbles of the out-of-position
array are taken as the first element of a checked pair (each checked against
the full item list), and no unordered pair of bubbles is evaluated twice:
the sweep tracks the already-processed prefix
(`previouslyChecked = array.slice(0, i)`) and skips it. -/
theorem sweep_at_most_once (cfg : Config) (s : State) (hnodup : cfg.items.Nodup) :
    (∀ p ∈ sweepPairs cfg.items [] (outOfPositionArray cfg s),
        p.1 ∈ outOfPositionArray cfg s ∧ isBubbleOutOfPosition cfg s p.1 ∧
          p.2 ∈ cfg.items) ∧
      (sweepPairs cfg.items [] (outOfPositionArray cfg s)).Pairwise
        fun p q => ¬ sameUnorderedPair p q := by
  constructor
  · intro p hp
    obtain ⟨h1, h2, _, _⟩ := mem_sweepPairs hp
    have hmem := List.mem_filter.mp (by rw [outOfPositionArray] at h1; exact h1)
    exact ⟨h1, of_decide_eq_true hmem.2, h2⟩
  · refine sweepPairs_pairwise hnodup [] (outOfPositionArray cfg s) ?_
    rw [List.nil_append, outOfPositionArray]
    exact hnodup.filter _

/-- Witness for C9 at a concrete two-item menu. -/
theorem sweep_at_most_once_witness :
    let cfg : Config := ⟨[ "a", "b" ], fun _ => ⟨100, 100⟩, 1000, 1000, 50, 100, 4, false⟩
    let s : State := ⟨fun _ => ⟨100, 100⟩, fun _ => ⟨0, 0⟩, fun _ => false⟩
    (sweepPairs cfg.items [] (outOfPositionArray cfg s)).Pairwise
      fun p q => ¬ sameUnorderedPair p q := by
  intro cfg s
  exact (sweep_at_most_once cfg s (by decide)).2

/-! ### C7: the bounds invariant -/

@[simp] lemma Position_mk_x (x y : ℝ) : (Position.mk x y).x = x := rfl

@[simp] lemma Position_mk_y (x y : ℝ) : (Position.mk x y).y = y := rfl

lemma clampPosition_inBounds (cfg : Config) (p : Position)
    (hW : cfg.bubbleRadius * 2 ≤ cfg.width) (hH : cfg.bubbleRadius * 2 ≤ cfg.height) :
    InBounds cfg (clampPosition cfg p cfg.bubbleRadius) := by
  rw [InBounds, clampPosition]
  split_ifs with hf
  · simp
  · refine ⟨by simp, ?_, by simp, ?_⟩
    · exact max_le (by linarith) (min_le_left _ _)
    · exact max_le (by linarith) (min_le_left _ _)

/-- The home positions produced by `constrainToWindow` satisfy the bounds
invariant whenever the container is at least the bubble diameter plus the two
40px lateral paddings wide, and at least the diameter tall. -/
lemma constrainToWindow_inBounds (cfg : Config) (p : Position)
    (hW : cfg.bubbleRadius * 2 + 80 ≤ cfg.width) (hH : cfg.bubbleRadius * 2 ≤ cfg.height) :
    InBounds cfg (constrainToWindow cfg p cfg.bubbleRadius) := by
  rw [InBounds, constrainToWindow]
  split_ifs with hf
  · simp
  · refine ⟨le_trans (by norm_num) (le_max_left _ _), ?_, by simp, ?_⟩
    · exact max_le (by linarith) (le_trans (min_le_left _ _) (by linarith))
    · exact max_le (by linarith) (min_le_left _ _)

lemma wrapperClampPosition_inBounds (cfg : Config) (x y : ℝ)
    (hW : cfg.bubbleRadius * 2 ≤ cfg.width) (hH : cfg.bubbleRadius * 2 ≤ cfg.height) :
    InBounds cfg (wrapperClampPosition cfg x y) := by
  rw [InBounds, wrapperClampPosition]
  split_ifs with hf
  · simp
  · refine ⟨by simp, ?_, by simp, ?_⟩
    · exact max_le (by linarith) (min_le_left _ _)
    · exact max_le (by linarith) (min_le_left _ _)

lemma homingStep_coord_mem {lo hi a b : ℝ} (ha1 : lo ≤ a) (ha2 : a ≤ hi)
    (hb1 : lo ≤ b) (hb2 : b ≤ hi) :
    lo ≤ (if |(a - b) * 0.5| < 0.5 then a else b + (a - b) * 0.5) ∧
      (if |(a - b) * 0.5| < 0.5 then a else b + (a - b) * 0.5) ≤ hi := by
  split_ifs
  · exact ⟨ha1, ha2⟩
  · constructor <;> linarith

lemma homingStep_coord_lb {lo a b : ℝ} (ha : lo ≤ a) (hb : lo ≤ b) :
    lo ≤ (if |(a - b) * 0.5| < 0.5 then a else b + (a - b) * 0.5) := by
  split_ifs
  · exact ha
  · linarith

lemma homingStep_inBounds (cfg : Config) {home pos : Position}
    (hh : InBounds cfg home) (hp : InBounds cfg pos) :
    InBounds cfg (homingStep home pos) := by
  rw [InBounds] at hh hp ⊢
  simp only [homingStep, Position_mk_x, Position_mk_y]
  by_cases hf : cfg.freedom = true
  · rw [if_pos hf] at hh hp ⊢
    exact homingStep_coord_lb hh hp
  · rw [if_neg hf] at hh hp ⊢
    obtain ⟨hh1, hh2, hh3, hh4⟩ := hh
    obtain ⟨hp1, hp2, hp3, hp4⟩ := hp
    obtain ⟨e1, e2⟩ := homingStep_coord_mem hh1 hh2 hp1 hp2
    obtain ⟨e3, e4⟩ := homingStep_coord_mem hh3 hh4 hp3 hp4
    exact ⟨e1, e2, e3, e4⟩

lemma homingFoldStep_store_cases (cfg : Config) (ig : Bool) (acc : State × Bool)
    (item c : BubbleId) :
    (homingFoldStep cfg ig acc item).1.store c = acc.1.store c ∨
      (homingFoldStep cfg ig acc item).1.store c =
        homingStep (cfg.home item) (acc.1.store item) := by
  by_cases hc : c = item
  · subst hc
    simp only [homingFoldStep]
    split_ifs <;> first | exact Or.inl rfl | (right; simp)
  · exact Or.inl (homingFoldStep_store_ne cfg ig acc hc)

lemma foldl_homing_inBounds (cfg : Config) (ig : Bool)
    (hhome : ∀ id, InBounds cfg (cfg.home id)) :
    ∀ (l : List BubbleId) (acc : State × Bool),
      (∀ id, InBounds cfg (acc.1.store id)) →
      ∀ id, InBounds cfg ((l.foldl (homingFoldStep cfg ig) acc).1.store id) := by
  intro l
  induction l with
  | nil => intro acc h id; exact h id
  | cons a t ih =>
    intro acc h id
    rw [List.foldl_cons]
    refine ih _ ?_ id
    intro c
    rcases homingFoldStep_store_cases cfg ig acc a c with he | he
    · rw [he]; exact h c
    · rw [he]; exact homingStep_inBounds cfg (hhome a) (h a)

lemma applyCollisionWrites_inBounds (cfg : Config) (s : State) (idA idB : BubbleId)
    (pA pB : Position) (h : ∀ id, InBounds cfg (s.store id))
    (hpA : InBounds cfg pA) (hpB : InBounds cfg pB) :
    ∀ id, InBounds cfg ((applyCollisionWrites s idA idB pA pB).store id) := by
  intro id
  simp only [applyCollisionWrites]
  split_ifs <;>
    (try simp only [updateBubblePosition_store]) <;>
    (try split_ifs) <;>
    first | exact hpA | exact hpB | exact h id

lemma applyOp_inBounds (cfg : Config) (s : State) (op : Op)
    (hW : cfg.bubbleRadius * 2 ≤ cfg.width) (hH : cfg.bubbleRadius * 2 ≤ cfg.height)
    (hhome : ∀ id, InBounds cfg (cfg.home id))
    (h : ∀ id, InBounds cfg (s.store id)) :
    ∀ id, InBounds cfg ((applyOp cfg s op).store id) := by
  cases op with
  | setPos id p =>
    intro c
    show InBounds cfg ((setPosition s id p).store c)
    rw [setPosition_store]
    exact h c
  | resolve idA idB =>
    intro c
    show InBounds cfg ((handleCollision cfg s idA idB).store c)
    rcases handleCollision_eq_writes cfg s idA idB with he | ⟨qA, qB, he⟩
    · rw [he]; exact h c
    · rw [he]
      exact applyCollisionWrites_inBounds cfg s idA idB _ _ h
        (clampPosition_inBounds cfg qA hW hH) (clampPosition_inBounds cfg qB hW hH) c
  | homing ig =>
    intro c
    exact foldl_homing_inBounds cfg ig hhome cfg.items (s, false) h c
  | dragGrant id =>
    intro c
    exact h c
  | dragMove id g fl =>
    intro c
    show InBounds cfg ((dragMove cfg s id g fl).store c)
    simp only [dragMove]
    split_ifs with hfl
    · simp only [updateBubblePosition_store]
      split_ifs
      · exact wrapperClampPosition_inBounds cfg _ _ hW hH
      · exact h c
    · exact h c
  | dragRelease id =>
    intro c
    show InBounds cfg ((dragRelease cfg s id).store c)
    simp only [dragRelease, updateBubblePosition_store]
    split_ifs with hc
    · exact hhome id
    · exact h c

/-- C7.  Starting from the clamped home positions (any handle positions and
drag flags), every sequence of writes to the LogicalPosition store — collision
resolutions, homing passes, drag moves, drag releases, together with the
remaining operations which do not touch the store — keeps every bubble's
position within the bounds implied by the freedom flag and the container
dimensions: with freedom off, x in [0, width - 2 radius] and y in
[0, height - 2 radius]; with freedom on, x unconstrained and y nonnegative. -/
theorem bounds_invariant (cfg : Config)
    (hW : cfg.bubbleRadius * 2 ≤ cfg.width) (hH : cfg.bubbleRadius * 2 ≤ cfg.height)
    (hhome : ∀ id, InBounds cfg (cfg.home id))
    (hp : BubbleId → Position) (dr : BubbleId → Bool) (ops : List Op) :
    ∀ id, InBounds cfg ((applyOps cfg ops ⟨cfg.home, hp, dr⟩).store id) := by
  have key : ∀ (l : List Op) (s : State), (∀ id, InBounds cfg (s.store id)) →
      ∀ id, InBounds cfg ((applyOps cfg l s).store id) := by
    intro l
    induction l with
    | nil => intro s h id; exact h id
    | cons op t ih =>
      intro s h id
      rw [applyOps, List.foldl_cons, ← applyOps]
      exact ih _ (applyOp_inBounds cfg s op hW hH hhome h) id
  exact key ops ⟨cfg.home, hp, dr⟩ (fun id => hhome id)

/-- Witness for C7 at a concrete configuration and write sequence. -/
theorem bounds_invariant_witness :
    let cfg : Config := ⟨[ "a", "b" ], fun _ => ⟨100, 100⟩, 1000, 1000, 50, 100, 4, false⟩
    ∀ id, InBounds cfg
      ((applyOps cfg [ Op.dragGrant "a", Op.dragMove "a" ⟨700, 900⟩ true,
          Op.resolve "a" "b", Op.dragRelease "a", Op.homing true ]
        ⟨cfg.home, fun _ => ⟨0, 0⟩, fun _ => false⟩).store id) := by
  intro cfg
  refine bounds_invariant cfg (by norm_num [show cfg.bubbleRadius = 50 from rfl,
    show cfg.width = 1000 from rfl]) (by norm_num [show cfg.bubbleRadius = 50 from rfl,
    show cfg.height = 1000 from rfl]) ?_ _ _ _
  intro id
  show InBounds cfg ⟨100, 100⟩
  rw [InBounds, if_neg (by simp [show cfg.freedom = false from rfl])]
  refine ⟨by norm_num, ?_, by norm_num, ?_⟩
  · rw [show cfg.width = 1000 from rfl, show cfg.bubbleRadius = 50 from rfl]
    norm_num
  · rw [show cfg.height = 1000 from rfl, show cfg.bubbleRadius = 50 from rfl]
    norm_num

/-! ### C8: collision-aware homing lookahead -/

lemma homingFoldStep_store_self_of_willCollide (cfg : Config) {acc : State × Bool}
    {id : BubbleId}
    (hwill : willCollideAtPosition cfg acc.1 id (homingStep (cfg.home id) (acc.1.store id))) :
    (homingFoldStep cfg false acc id).1.store id = acc.1.store id := by
  simp only [homingFoldStep, Bool.false_eq_true, if_false]
  split_ifs <;> rfl

/-- C8.  During a collision-aware homing pass (used whenever some bubble is
dragging), a non-dragged bubble that is out of position at its processing
point but whose candidate next homing position would come within minDist of
another bubble's current stored position is not moved: its LogicalPosition
entry is the same after the whole pass.  `pre`/`post` split the item list
around the bubble and `sMid` is the store state when the pass reaches it. -/
theorem homing_lookahead_skip (cfg : Config) (s : State) (pre post : List BubbleId)
    (id : BubbleId) (sMid : State)
    (hsplit : cfg.items = pre ++ id :: post) (hnodup : cfg.items.Nodup)
    (hmid : sMid = (pre.foldl (homingFoldStep cfg false) (s, false)).1)
    (hdrag : s.dragging id = false)
    (hout : isBubbleOutOfPosition cfg sMid id)
    (hwill : willCollideAtPosition cfg sMid id (homingStep (cfg.home id) (sMid.store id))) :
    (moveBubblesBackToInitialPositions cfg false s).1.store id = s.store id := by
  have hnd := hnodup
  rw [hsplit] at hnd
  have hidpre : id ∉ pre := by
    intro hm
    exact (List.nodup_append.mp hnd).2.2 hm (List.mem_cons_self id post)
  have hidpost : id ∉ post := (List.nodup_cons.mp hnd.of_append_right).1
  rw [moveBubblesBackToInitialPositions, hsplit, List.foldl_append, List.foldl_cons]
  rw [foldl_homing_store_ne cfg false hidpost]
  rw [hmid] at hwill
  rw [homingFoldStep_store_self_of_willCollide cfg hwill]
  exact foldl_homing_store_ne cfg false hidpre (s, false)

/-- Witness for C8: bubble 'b' is out of position, its candidate homing step
lands 60px from the dragged bubble 'a' (below minDist 110), so the pass leaves
'b' where it is. -/
theorem homing_lookahead_skip_witness :
    let cfg : Config := ⟨[ "a", "b" ],
      fun id => if id = "b" then ⟨200, 0⟩ else ⟨310, 0⟩, 1000, 1000, 50, 100, 4, false⟩
    let s : State := ⟨fun id => if id = "b" then ⟨300, 0⟩ else ⟨310, 0⟩,
      fun _ => ⟨0, 0⟩, fun id => id = "a"⟩
    (moveBubblesBackToInitialPositions cfg false s).1.store "b" = s.store "b" := by
  intro cfg s
  have hstep : homingStep (cfg.home "b") (s.store "b") = ⟨250, 0⟩ := by
    show homingStep ⟨200, 0⟩ ⟨300, 0⟩ = ⟨250, 0⟩
    have c1 : ¬ |((200 : ℝ) - 300) * 0.5| < 0.5 := by
      rw [show ((200 : ℝ) - 300) * 0.5 = -50 by norm_num, abs_neg,
        abs_of_nonneg (by norm_num : (0 : ℝ) ≤ 50)]
      norm_num
    have c2 : |((0 : ℝ) - 0) * 0.5| < 0.5 := by
      rw [show ((0 : ℝ) - 0) * 0.5 = 0 by norm_num, abs_zero]
      norm_num
    simp only [homingStep, Position_mk_x, Position_mk_y]
    rw [if_neg c1, if_pos c2]
    norm_num [Position.mk.injEq]
  refine homing_lookahead_skip cfg s [ "a" ] [] "b" s rfl (by decide) rfl rfl ?_ ?_
  · left
    show (1 : ℝ) < |(200 : ℝ) - 300|
    rw [show (200 : ℝ) - 300 = -100 by norm_num, abs_neg,
      abs_of_nonneg (by norm_num : (0 : ℝ) ≤ 100)]
    norm_num
  · rw [hstep]
    refine ⟨ "a", by decide, by decide, ?_⟩
    show hypot ((310 : ℝ) - 250) ((0 : ℝ) - 0) < cfg.bubbleRadius * 2 + 10
    rw [show (310 : ℝ) - 250 = 60 by norm_num, show (0 : ℝ) - 0 = 0 by norm_num,
      hypot_zero_right 60 (by norm_num), show cfg.bubbleRadius = 50 from rfl]
    norm_num

/-- Witness for C10 at concrete ids. -/
theorem handleCollision_frame_witness :
    ∃ cfg : Config, ∃ s : State,
      (handleCollision cfg s "a" "b").store "c" = s.store "c" := by
  refine ⟨⟨[ "a", "b", "c" ], fun _ => ⟨100, 100⟩, 1000, 1000, 50, 100, 4, false⟩,
    ⟨fun _ => ⟨100, 100⟩, fun _ => ⟨100, 100⟩, fun _ => false⟩, ?_⟩
  exact (handleCollision_frame _ _ "a" "b" "c" (by decide) (by decide)).1

/-! ### C5: convergence and idempotent steady state -/

lemma collisionPass_dragging (cfg : Config) (s : State) (array : List BubbleId) :
    (collisionPass cfg s array).dragging = s.dragging := by
  rw [collisionPass]
  generalize sweepPairs cfg.items [] array = ps
  induction ps generalizing s with
  | nil => rfl
  | cons p t ih =>
    rw [List.foldl_cons, ih]
    split_ifs
    · exact handleCollision_dragging cfg s p.1 p.2
    · rfl

lemma runLogicTick_dragging (cfg : Config) (s : State) :
    (runLogicTick cfg s).dragging = s.dragging := by
  simp only [runLogicTick]
  split_ifs
  · rfl
  · rw [moveBubblesBack_dragging, collisionPass_dragging]
  · rw [moveBubblesBack_dragging]

lemma runLogicTick_no_drag (cfg : Config) (s : State)
    (hd : ∀ c ∈ cfg.items, s.dragging c = false) :
    runLogicTick cfg s = if (outOfPositionArray cfg s).isEmpty then s
      else (moveBubblesBackToInitialPositions cfg true s).1 := by
  have had : isAnyBubbleDragging cfg s = false := by
    rw [isAnyBubbleDragging, List.any_eq_false]
    intro x hx
    rw [hd x hx]
    exact Bool.false_ne_true
  simp only [runLogicTick]
  split_ifs with h1 h2
  · rfl
  · rw [had] at h2
    exact absurd h2 (by simp)
  · rfl

lemma runLogicTick_eq_self_of_in_position (cfg : Config) (s : State)
    (h : ∀ id ∈ cfg.items, ¬ isBubbleOutOfPosition cfg s id) :
    runLogicTick cfg s = s := by
  have he : outOfPositionArray cfg s = [] := by
    rw [outOfPositionArray, List.filter_eq_nil_iff]
    intro a ha
    simp [h a ha]
  simp only [runLogicTick, he]
  rfl

lemma moveBack_true_store_eq (cfg : Config) (hnodup : cfg.items.Nodup) (s : State)
    {id : BubbleId} (hid : id ∈ cfg.items) :
    (moveBubblesBackToInitialPositions cfg true s).1.store id =
      if s.dragging id then s.store id
      else if isBubbleOutOfPosition cfg s id then homingStep (cfg.home id) (s.store id)
      else s.store id := by
  obtain ⟨pre, post, heq⟩ := List.append_of_mem hid
  have hnd := hnodup
  rw [heq] at hnd
  have hidpre : id ∉ pre := by
    intro hm
    exact (List.nodup_append.mp hnd).2.2 hm (List.mem_cons_self id post)
  have hidpost : id ∉ post := (List.nodup_cons.mp hnd.of_append_right).1
  rw [moveBubblesBackToInitialPositions, heq, List.foldl_append, List.foldl_cons,
    foldl_homing_store_ne cfg true hidpost]
  have haccd : (pre.foldl (homingFoldStep cfg true) (s, false)).1.dragging = s.dragging :=
    foldl_homing_dragging cfg true pre (s, false)
  have haccs : (pre.foldl (homingFoldStep cfg true) (s, false)).1.store id = s.store id :=
    foldl_homing_store_ne cfg true hidpre (s, false)
  by_cases hdrag : s.dragging id = true
  · have hstep : homingFoldStep cfg true (pre.foldl (homingFoldStep cfg true) (s, false)) id =
        pre.foldl (homingFoldStep cfg true) (s, false) := by
      simp only [homingFoldStep]
      rw [if_pos (by rw [haccd]; exact hdrag)]
    rw [hstep, haccs, if_pos hdrag]
  · have hout_eq : isBubbleOutOfPosition cfg (pre.foldl (homingFoldStep cfg true) (s, false)).1 id
        ↔ isBubbleOutOfPosition cfg s id := by
      rw [isBubbleOutOfPosition, isBubbleOutOfPosition, haccs]
    by_cases ho : isBubbleOutOfPosition cfg s id
    · have hstep : homingFoldStep cfg true (pre.foldl (homingFoldStep cfg true) (s, false)) id =
          (updateBubblePosition (pre.foldl (homingFoldStep cfg true) (s, false)).1 id
            (homingStep (cfg.home id)
              ((pre.foldl (homingFoldStep cfg true) (s, false)).1.store id)), true) := by
        simp only [homingFoldStep]
        rw [if_neg (by rw [haccd]; exact hdrag), if_pos trivial, if_pos (hout_eq.mpr ho)]
      rw [hstep]
      show (if id = id then _ else _) = _
      rw [if_pos rfl, haccs, if_neg hdrag, if_pos ho]
    · have hstep : homingFoldStep cfg true (pre.foldl (homingFoldStep cfg true) (s, false)) id =
          pre.foldl (homingFoldStep cfg true) (s, false) := by
        simp only [homingFoldStep]
        rw [if_neg (by rw [haccd]; exact hdrag), if_pos trivial,
          if_neg (fun hc => ho (hout_eq.mp hc))]
      rw [hstep, haccs, if_neg hdrag, if_neg ho]

lemma not_out_iff (cfg : Config) (s : State) (id : BubbleId) :
    ¬ isBubbleOutOfPosition cfg s id ↔ axisDist cfg s id ≤ 1 := by
  rw [isBubbleOutOfPosition, axisDist]
  simp only [not_or, not_lt, max_le_iff]

lemma homing_coord_halves (a b : ℝ) :
    |a - (if |(a - b) * 0.5| < 0.5 then a else b + (a - b) * 0.5)| ≤ |a - b| / 2 := by
  split_ifs
  · rw [sub_self, abs_zero]
    positivity
  · rw [show a - (b + (a - b) * 0.5) = (a - b) * 0.5 by ring, abs_mul,
      abs_of_nonneg (by norm_num : (0 : ℝ) ≤ 0.5)]
    linarith [abs_nonneg (a - b)]

lemma tick_axisDist (cfg : Config) (hnodup : cfg.items.Nodup) (s : State)
    (hd : ∀ c ∈ cfg.items, s.dragging c = false) {id : BubbleId} (hid : id ∈ cfg.items) :
    (isBubbleOutOfPosition cfg s id →
        axisDist cfg (runLogicTick cfg s) id ≤ axisDist cfg s id / 2) ∧
      (¬ isBubbleOutOfPosition cfg s id → (runLogicTick cfg s).store id = s.store id) := by
  rw [runLogicTick_no_drag cfg s hd]
  by_cases he : (outOfPositionArray cfg s).isEmpty
  · rw [if_pos he]
    refine ⟨?_, fun _ => rfl⟩
    intro ho
    exfalso
    rw [List.isEmpty_iff] at he
    have hmem : id ∈ outOfPositionArray cfg s := by
      rw [outOfPositionArray]
      exact List.mem_filter.mpr ⟨hid, decide_eq_true ho⟩
    rw [he] at hmem
    exact List.not_mem_nil id hmem
  · rw [if_neg he]
    have hsid := moveBack_true_store_eq cfg hnodup s hid
    rw [if_neg (by rw [hd id hid]; exact Bool.false_ne_true)] at hsid
    constructor
    · intro ho
      rw [if_pos ho] at hsid
      rw [axisDist, hsid]
      simp only [homingStep, Position_mk_x, Position_mk_y]
      refine max_le ?_ ?_
      · calc |(cfg.home id).x - _| ≤ |(cfg.home id).x - (s.store id).x| / 2 :=
            homing_coord_halves _ _
        _ ≤ axisDist cfg s id / 2 := by
            have := le_max_left |(cfg.home id).x - (s.store id).x|
              |(cfg.home id).y - (s.store id).y|
            rw [axisDist]
            linarith
      · calc |(cfg.home id).y - _| ≤ |(cfg.home id).y - (s.store id).y| / 2 :=
            homing_coord_halves _ _
        _ ≤ axisDist cfg s id / 2 := by
            have := le_max_right |(cfg.home id).x - (s.store id).x|
              |(cfg.home id).y - (s.store id).y|
            rw [axisDist]
            linarith
    · intro hno
      rw [if_neg hno] at hsid
      exact hsid

lemma le_foldr_max : ∀ (l : List ℝ) (x : ℝ), x ∈ l → x ≤ l.foldr max 0
  | [], x, hx => absurd hx (List.not_mem_nil x)
  | a :: t, x, hx => by
    rw [List.foldr_cons]
    rcases List.mem_cons.mp hx with rfl | hx
    · exact le_max_left _ _
    · exact le_trans (le_foldr_max t x hx) (le_max_right _ _)

/-- C5.  For any configuration in which no bubble is dragging, iterating the
logic tick drives every bubble's LogicalPosition to within the 1px
out-of-position threshold of its home position within a bounded number of
ticks N, after which every further tick is the identity on the state (no
position writes at all). -/
theorem homing_convergence (cfg : Config) (s : State)
    (hnodup : cfg.items.Nodup) (hd : ∀ c ∈ cfg.items, s.dragging c = false) :
    ∃ N : ℕ,
      (∀ id ∈ cfg.items, ¬ isBubbleOutOfPosition cfg ((runLogicTick cfg)^[N] s) id) ∧
        ∀ k, N ≤ k → (runLogicTick cfg)^[k] s = (runLogicTick cfg)^[N] s := by
  obtain ⟨n, hn⟩ := exists_nat_gt ((cfg.items.map (axisDist cfg s)).foldr max 0)
  have hB : (cfg.items.map (axisDist cfg s)).foldr max 0 ≤ (2 : ℝ) ^ n := by
    have h1 : (n : ℝ) ≤ (2 : ℝ) ^ n := by
      have := Nat.lt_two_pow n
      calc (n : ℝ) ≤ ((2 ^ n : ℕ) : ℝ) := by exact_mod_cast Nat.le_of_lt this
      _ = (2 : ℝ) ^ n := by push_cast; ring
    linarith
  have hdrag_iter : ∀ k, ∀ c ∈ cfg.items, ((runLogicTick cfg)^[k] s).dragging c = false := by
    intro k
    induction k with
    | zero => exact hd
    | succ k ih =>
      intro c hc
      rw [Function.iterate_succ_apply', runLogicTick_dragging]
      exact ih c hc
  have hinv : ∀ k, ∀ id ∈ cfg.items,
      axisDist cfg ((runLogicTick cfg)^[k] s) id ≤
        max 1 ((cfg.items.map (axisDist cfg s)).foldr max 0 / 2 ^ k) := by
    intro k
    induction k with
    | zero =>
      intro id hid
      refine le_max_of_le_right ?_
      rw [pow_zero, div_one]
      exact le_foldr_max _ _ (List.mem_map_of_mem _ hid)
    | succ k ih =>
      intro id hid
      rw [Function.iterate_succ_apply']
      by_cases ho : isBubbleOutOfPosition cfg ((runLogicTick cfg)^[k] s) id
      · have hstep := (tick_axisDist cfg hnodup _ (hdrag_iter k) hid).1 ho
        have hbound := ih id hid
        have hgt : 1 < axisDist cfg ((runLogicTick cfg)^[k] s) id := by
          by_contra hle
          exact (not_out_iff cfg _ id).mpr (le_of_not_lt hle) ho
        have hBk : axisDist cfg ((runLogicTick cfg)^[k] s) id ≤
            (cfg.items.map (axisDist cfg s)).foldr max 0 / 2 ^ k := by
          rcases le_max_iff.mp hbound with h | h
          · linarith
          · exact h
        refine le_max_of_le_right ?_
        calc axisDist cfg (runLogicTick cfg ((runLogicTick cfg)^[k] s)) id ≤
            axisDist cfg ((runLogicTick cfg)^[k] s) id / 2 := hstep
        _ ≤ ((cfg.items.map (axisDist cfg s)).foldr max 0 / 2 ^ k) / 2 := by linarith
        _ = (cfg.items.map (axisDist cfg s)).foldr max 0 / 2 ^ (k + 1) := by
            rw [pow_succ]
            ring
      · have hstep := (tick_axisDist cfg hnodup _ (hdrag_iter k) hid).2 ho
        have heqd : axisDist cfg (runLogicTick cfg ((runLogicTick cfg)^[k] s)) id =
            axisDist cfg ((runLogicTick cfg)^[k] s) id := by
          rw [axisDist, hstep, axisDist]
        rw [heqd]
        exact le_max_of_le_left ((not_out_iff cfg _ id).mp ho)
  have hconv : ∀ id ∈ cfg.items, ¬ isBubbleOutOfPosition cfg ((runLogicTick cfg)^[n] s) id := by
    intro id hid
    refine (not_out_iff cfg _ id).mpr ?_
    have h1 := hinv n id hid
    have hdiv : (cfg.items.map (axisDist cfg s)).foldr max 0 / 2 ^ n ≤ 1 := by
      rw [div_le_one (by positivity)]
      exact hB
    calc axisDist cfg ((runLogicTick cfg)^[n] s) id ≤
        max 1 ((cfg.items.map (axisDist cfg s)).foldr max 0 / 2 ^ n) := h1
    _ ≤ 1 := max_le le_rfl hdiv
  refine ⟨n, hconv, ?_⟩
  have hfix : runLogicTick cfg ((runLogicTick cfg)^[n] s) = (runLogicTick cfg)^[n] s :=
    runLogicTick_eq_self_of_in_position cfg _ hconv
  have hiter : ∀ j, (runLogicTick cfg)^[j] ((runLogicTick cfg)^[n] s) =
      (runLogicTick cfg)^[n] s := by
    intro j
    induction j with
    | zero => rfl
    | succ j ih => rw [Function.iterate_succ_apply', ih, hfix]
  intro k hk
  obtain ⟨j, rfl⟩ := Nat.exists_eq_add_of_le hk
  rw [Nat.add_comm, Function.iterate_add_apply]
  exact hiter j

/-- Witness for C5 at a concrete static two-bubble configuration with one
bubble displaced from home. -/
theorem homing_convergence_witness :
    let cfg : Config := ⟨[ "a", "b" ],
      fun id => if id = "b" then ⟨200, 0⟩ else ⟨100, 0⟩, 1000, 1000, 50, 100, 4, false⟩
    let s : State := ⟨fun id => if id = "b" then ⟨300, 0⟩ else ⟨100, 0⟩,
      fun _ => ⟨0, 0⟩, fun _ => false⟩
    ∃ N : ℕ,
      (∀ id ∈ cfg.items, ¬ isBubbleOutOfPosition cfg ((runLogicTick cfg)^[N] s) id) ∧
        ∀ k, N ≤ k → (runLogicTick cfg)^[k] s = (runLogicTick cfg)^[N] s := by
  intro cfg s
  exact homing_convergence cfg s (by decide) (fun c _ => rfl)

end

end BubbleMenu
